import Mathlib

/-!
Verification of the EduAnalytics statistical analysis engine.

The development shallowly embeds the core of the repository:
  * `services/geminiService.ts` (statistics primitives, classifier, analysis
    aggregator, AI prompt construction), and
  * the row-normalization logic of `App.tsx` (`getSmartValue`,
    `onMappingConfirmed`).

Modelling conventions:
  * JavaScript numbers are modelled as exact rationals (`ℚ`); the float
    square root (`Math.sqrt`) forces `ℝ` for the two functions that use it
    (`calculateStdDev`, `calculateCorrelation`), which is why those
    definitions and their consumers live in `ℝ`.
  * JavaScript objects used as string-keyed maps are modelled as association
    lists in insertion order; `Array.prototype.sort` (stable since ES2019)
    is modelled by a stable insertion sort.
  * `NaN` is modelled by `Option.none` where it arises from parsing
    (`parseFloat`); the `isNaN(denominator)` guard in the correlation code
    can never fire because the radicand is a sum of squares, so it is
    dropped from the model with a comment.
-/

/-- A raw spreadsheet cell value: `string | number | undefinedVined | null`
(from `types.ts`, interface `RawRow`).  `NaN`/`Infinity` are not modelled. -/
inductive JSVal where
  | str (s : String)
  | num (q : ℚ)
  | null
  | undefinedV
  deriving DecidableEq, Repr

/-- A raw row: mapping from column-name string to a nullable scalar
(`types.ts` `RawRow`), in key insertion order. -/
abbrev RawRow := List (String × JSVal)

/-- JavaScript truthiness on the values a `RawRow` cell can hold:
`undefined`, `null`, `''` and `0` are falsy. -/
def truthy : JSVal → Bool
  | .str s => s ≠ ""
  | .num q => q ≠ 0
  | .null => false
  | .undefinedV => false

/-- `String(v)` on a cell value.  Numbers are rendered via `ℚ`'s
representation; only nonemptiness of the result matters to the claims,
so the exact digit format of JavaScript floats is not reproduced. -/
def toJSString : JSVal → String
  | .str s => s
  | .num q => toString q
  | .null => "null"
  | .undefinedV => "undefined"

/-- JavaScript `String.prototype.trim`, modelled structurally over the
character list (Lean's own `String.trim` is defined by well-founded
recursion on byte positions and does not evaluate in the kernel). -/
def jsTrim (s : String) : String :=
  String.mk (((s.toList.dropWhile Char.isWhitespace).reverse.dropWhile Char.isWhitespace).reverse)

/-- JavaScript `String.prototype.toLowerCase` (ASCII case folding),
modelled structurally over the character list. -/
def jsToLower (s : String) : String :=
  String.mk (s.toList.map Char.toLower)

/-- Value of a run of decimal digits. -/
def digitsToNat (ds : List Char) : ℕ :=
  ds.foldl (fun acc c => acc * 10 + (c.toNat - '0'.toNat)) 0

/-- JavaScript `parseFloat` on a string, returning `none` for `NaN`:
skip leading whitespace, read an optional sign, digits, an optional
fractional part and an optional exponent, and ignore any trailing
garbage.  (The `Infinity` literal is not modelled.) -/
def parseFloatString (s : String) : Option ℚ :=
  let cs := s.toList.dropWhile (fun c => c.isWhitespace)
  let sgn : ℚ := if cs.head? = some '-' then -1 else 1
  let cs := if cs.head? = some '-' ∨ cs.head? = some '+' then cs.tail else cs
  let intPart := cs.takeWhile Char.isDigit
  let cs2 := cs.dropWhile Char.isDigit
  let fracPart := if cs2.head? = some '.' then cs2.tail.takeWhile Char.isDigit else []
  let cs3 := if cs2.head? = some '.' then cs2.tail.dropWhile Char.isDigit else cs2
  if intPart = [] ∧ fracPart = [] then none
  else
    let mant : ℚ := (digitsToNat intPart : ℚ) + (digitsToNat fracPart : ℚ) / (10 : ℚ) ^ fracPart.length
    let e : ℤ :=
      match cs3 with
      | c :: r =>
        if c = 'e' ∨ c = 'E' then
          let esgn : ℤ := if r.head? = some '-' then -1 else 1
          let r2 := if r.head? = some '-' ∨ r.head? = some '+' then r.tail else r
          let eds := r2.takeWhile Char.isDigit
          if eds = [] then 0 else esgn * (digitsToNat eds : ℤ)
        else 0
      | [] => 0
    some (sgn * mant * (10 : ℚ) ^ e)

/-- `parseFloat(String(v))` on a cell value, `none` for `NaN`.  For a
number the JavaScript string round-trip is the identity, so the numeric
case returns the number directly; `String(null) = "null"` and
`String(undefined) = "undefined"` fail to parse. -/
def jsParseFloatVal : JSVal → Option ℚ
  | .num q => some q
  | .str s => parseFloatString s
  | .null => none
  | .undefinedV => none

/-- The component-cell coercion of `App.tsx`:
`parseFloat(String(rawVal || '0'))` with `NaN` coerced to `0`. -/
def jsCoerce (v : JSVal) : ℚ :=
  let parsed := jsParseFloatVal (if truthy v then v else .str "0")
  parsed.getD 0

/-! ## Statistics primitives (`geminiService.ts`) -/

/-- `calculateMean`: `reduce((acc, val) => acc + val, 0) / length`,
`0` for empty input.  The left fold over `+` is written as `List.sum`. -/
def calculateMean (numbers : List ℚ) : ℚ :=
  if numbers.length = 0 then 0 else numbers.sum / numbers.length

/-- Ascending insertion (insertion-sort step) for `calculateMedian`'s
`[...numbers].sort((a, b) => a - b)`. -/
def insertAsc (q : ℚ) : List ℚ → List ℚ
  | [] => [q]
  | x :: xs => if q ≤ x then q :: x :: xs else x :: insertAsc q xs

/-- Ascending sort of a numeric list (value sort, so stability is moot). -/
def sortAsc : List ℚ → List ℚ
  | [] => []
  | x :: xs => insertAsc x (sortAsc xs)

/-- `calculateMedian`: sort ascending, take the middle element (odd
length) or the average of the two middle elements (even length);
`0` for empty input.  The `getD` defaults are never reached for the
in-range indices used. -/
def calculateMedian (numbers : List ℚ) : ℚ :=
  if numbers.length = 0 then 0
  else
    let sorted := sortAsc numbers
    let mid := sorted.length / 2
    if sorted.length % 2 ≠ 0 then sorted.getD mid 0
    else (sorted.getD (mid - 1) 0 + sorted.getD mid 0) / 2

/-- One step of the frequency-object update in `calculateMode`:
`frequency[num] = (frequency[num] || 0) + 1`, returning the updated
association list and the new count of `num`. -/
def bumpFreq : List (ℚ × ℕ) → ℚ → List (ℚ × ℕ) × ℕ
  | [], n => ([(n, 1)], 1)
  | (k, v) :: rest, n =>
    if k = n then ((k, v + 1) :: rest, v + 1)
    else
      let r := bumpFreq rest n
      ((k, v) :: r.1, r.2)

/-- `calculateMode`: scan the list keeping a frequency table, the maximal
frequency so far and the current mode (initially `numbers[0]`), replacing
the mode whenever a value's new frequency strictly exceeds the maximum;
`0` for empty input. -/
def calculateMode (numbers : List ℚ) : ℚ :=
  match numbers with
  | [] => 0
  | n0 :: _ =>
    (numbers.foldl
      (fun (st : List (ℚ × ℕ) × ℕ × ℚ) n =>
        let r := bumpFreq st.1 n
        if st.2.1 < r.2 then (r.1, r.2, n) else (r.1, st.2.1, st.2.2))
      ([], 0, n0)).2.2

/-- `calculateMin`: linear scan from `numbers[0]`; `0` for empty input. -/
def calculateMin (numbers : List ℚ) : ℚ :=
  match numbers with
  | [] => 0
  | x :: xs => xs.foldl (fun m v => if v < m then v else m) x

/-- `calculateMax`: linear scan from `numbers[0]`; `0` for empty input. -/
def calculateMax (numbers : List ℚ) : ℚ :=
  match numbers with
  | [] => 0
  | x :: xs => xs.foldl (fun m v => if m < v then v else m) x

/-- `calculateStdDev`: mean of squared deviations from the supplied mean,
then `Math.sqrt`; `0` for empty input.  The square root forces `ℝ`. -/
noncomputable def calculateStdDev (numbers : List ℚ) (mean : ℚ) : ℝ :=
  if numbers.length = 0 then 0
  else Real.sqrt ((calculateMean (numbers.map (fun v => (v - mean) ^ 2)) : ℚ) : ℝ)

/-- Sum of pairwise products of deviations — the `numerator` accumulator
of `calculateCorrelation`'s loop. -/
def covSum (x y : List ℚ) (xMean yMean : ℚ) : ℚ :=
  (List.zipWith (fun a b => (a - xMean) * (b - yMean)) x y).sum

/-- Sum of squared deviations from `m` — the `denomX`/`denomY`
accumulators of `calculateCorrelation`'s loop. -/
def sumSqDiff (x : List ℚ) (m : ℚ) : ℚ :=
  (x.map (fun a => (a - m) * (a - m))).sum

open Classical in
/-- `calculateCorrelation`: returns `0` when the lengths differ or the
first list is empty; otherwise `numerator / sqrt(denomX * denomY)` with a
guard returning `0` when the denominator is `0`.  The source also guards
`isNaN(denominator)`, which can never fire since the radicand is a product
of sums of squares (nonnegative), so it is not modelled. -/
noncomputable def calculateCorrelation (x y : List ℚ) : ℝ :=
  if x.length ≠ y.length ∨ x.length = 0 then 0
  else
    let xMean := calculateMean x
    let yMean := calculateMean y
    let numerator := covSum x y xMean yMean
    let denomX := sumSqDiff x xMean
    let denomY := sumSqDiff y yMean
    let denominator := Real.sqrt ((denomX : ℝ) * (denomY : ℝ))
    if denominator = 0 then 0 else (numerator : ℝ) / denominator

/-! ## Classifier (`determineGroup`, `determineGrade`) -/

/-- `StudentPerformanceGroup` enum from `types.ts`. -/
inductive StudentPerformanceGroup where
  | HighAchiever
  | AboveAverage
  | Average
  | BelowAverage
  | AtRisk
  deriving DecidableEq, Repr

/-- `determineGroup`: first-match-wins threshold chain. -/
def determineGroup (percentage : ℚ) : StudentPerformanceGroup :=
  if 90 ≤ percentage then .HighAchiever
  else if 75 ≤ percentage then .AboveAverage
  else if 60 ≤ percentage then .Average
  else if 50 ≤ percentage then .BelowAverage
  else .AtRisk

/-- `determineGrade`: first-match-wins threshold chain. -/
def determineGrade (percentage : ℚ) : String :=
  if 90 ≤ percentage then "A"
  else if 80 ≤ percentage then "B"
  else if 70 ≤ percentage then "C"
  else if 60 ≤ percentage then "D"
  else "F"

/-! ## Data model (`types.ts`) -/

/-- `ColumnMapping` from `types.ts`: `classCol` is a string (empty when
unused, tested for truthiness); `totalCol` is `string | null`. -/
structure ColumnMapping where
  nameCol : String
  classCol : String
  componentCols : List String
  totalCol : Option String

/-- The five-bin grade histogram built by `performFullAnalysis`
(`gradeDist` object with keys A/B/C/D/F). -/
structure GradeDist where
  A : ℕ
  B : ℕ
  C : ℕ
  D : ℕ
  F : ℕ

/-- `AnalysisSummary` from `types.ts`. -/
structure AnalysisSummary where
  mean : ℚ
  median : ℚ
  mode : ℚ
  stdDev : ℝ
  min : ℚ
  max : ℚ
  range : ℚ
  passCount : ℕ
  failCount : ℕ
  gradeDist : GradeDist

/-- `ComponentStat` from `types.ts`. -/
structure ComponentStat where
  name : String
  mean : ℚ
  median : ℚ
  mode : ℚ
  stdDev : ℝ
  min : ℚ
  max : ℚ
  correlationWithTotal : ℝ

/-- `StudentData` from `types.ts`.  The TypeScript field `class` is a
Lean keyword and is rendered `className`; `components` is an association
list in insertion order. -/
structure StudentData where
  id : String
  name : String
  className : String
  components : List (String × ℚ)
  totalScore : ℚ
  maxPossibleScore : ℚ
  percentage : ℚ
  group : StudentPerformanceGroup
  originalRow : RawRow
  sheetName : String

/-- Return type of `performFullAnalysis` (the summary/stats record before
`App.tsx` attaches the student list). -/
structure AnalysisResult where
  summary : AnalysisSummary
  componentStats : List ComponentStat
  strongestComponent : String
  weakestComponent : String

/-- `FullAnalysis` from `types.ts` (analysis result plus student list),
the input of the AI prompt builder. -/
structure FullAnalysis where
  summary : AnalysisSummary
  students : List StudentData
  componentStats : List ComponentStat
  strongestComponent : String
  weakestComponent : String

/-! ## Row normalizer (`App.tsx`) -/

/-- Plain property access `row[key]` on a raw row (first binding wins;
JavaScript objects cannot hold duplicate keys). -/
def jsIndex (row : RawRow) (key : String) : JSVal :=
  (List.lookup key row).getD .undefinedV

/-- `getSmartValue` from `App.tsx`: exact `hasOwnProperty` lookup first,
then a case-insensitive trimmed match over the row's keys; `undefined`
when both fail. -/
def getSmartValue (row : RawRow) (colName : String) : JSVal :=
  match List.lookup colName row with
  | some v => v
  | none =>
    let lowerColName := jsTrim (jsToLower colName)
    match row.find? (fun kv => jsTrim (jsToLower kv.1) = lowerColName) with
    | some kv => kv.2
    | none => .undefinedV

/-- The `name` local of `onMappingConfirmed`:
`rawName ? String(rawName) : ''` applied to the smart lookup of the
mapped name column. -/
def resolvedName (row : RawRow) (mapping : ColumnMapping) : String :=
  let rawName := getSmartValue row mapping.nameCol
  if truthy rawName then toJSString rawName else ""

/-- The body of the `allRows.map((row, idx) => ...)` callback in
`onMappingConfirmed`: builds one (pre-filter) `StudentData` from a raw
row, the column mapping and the row index. -/
def mkStudent (mapping : ColumnMapping) (idx : ℕ) (row : RawRow) : StudentData :=
  let name := resolvedName row mapping
  let sheetName :=
    let v := jsIndex row "SheetSource"
    if truthy v then toJSString v else "Unknown"
  let className :=
    if mapping.classCol ≠ "" then
      let rawClass := getSmartValue row mapping.classCol
      if truthy rawClass then toJSString rawClass else sheetName
    else sheetName
  let step := mapping.componentCols.foldl
    (fun (acc : List (String × ℚ) × ℚ) col =>
      let cleanVal := jsCoerce (getSmartValue row col)
      (acc.1 ++ [(col, cleanVal)], acc.2 + cleanVal))
    ([], 0)
  let total :=
    match mapping.totalCol with
    | some t =>
      if t = "" then step.2
      else
        match jsParseFloatVal (getSmartValue row t) with
        | some tVal => tVal
        | none => step.2
    | none => step.2
  { id := "s-" ++ sheetName ++ "-" ++ toString idx
    name := name
    className := className
    components := step.1
    totalScore := total
    maxPossibleScore := 100
    percentage := total
    group := determineGroup total
    originalRow := row
    sheetName := sheetName }

/-- The row-processing pipeline of `onMappingConfirmed` starting from the
concatenated, sheet-tagged row list: map each row to a student, then keep
only students with a truthy, non-whitespace name. -/
def processRows (rows : List RawRow) (mapping : ColumnMapping) : List StudentData :=
  (rows.enum.map (fun p => mkStudent mapping p.1 p.2)).filter
    (fun s => s.name ≠ "" ∧ jsTrim s.name ≠ "")

/-! ## Analysis aggregator (`performFullAnalysis`) -/

/-- The `summary` object literal of `performFullAnalysis`. -/
noncomputable def summaryOf (students : List StudentData) : AnalysisSummary :=
  let scores := students.map (·.percentage)
  let mean := calculateMean scores
  { mean := mean
    median := calculateMedian scores
    mode := calculateMode scores
    stdDev := calculateStdDev scores mean
    min := calculateMin scores
    max := calculateMax scores
    range := calculateMax scores - calculateMin scores
    passCount := (students.filter (fun s => 60 ≤ s.percentage)).length
    failCount := (students.filter (fun s => s.percentage < 60)).length
    gradeDist :=
      { A := (students.filter (fun s => determineGrade s.percentage = "A")).length
        B := (students.filter (fun s => determineGrade s.percentage = "B")).length
        C := (students.filter (fun s => determineGrade s.percentage = "C")).length
        D := (students.filter (fun s => determineGrade s.percentage = "D")).length
        F := (students.filter (fun s => determineGrade s.percentage = "F")).length } }

/-- The component-analysis block of `performFullAnalysis`: component keys
come from the first student (`Object.keys(students[0]?.components || {})`),
and each per-student component value is looked up by key. -/
noncomputable def componentStatsOf (students : List StudentData) : List ComponentStat :=
  let scores := students.map (·.percentage)
  let componentKeys :=
    match students with
    | [] => []
    | s :: _ => s.components.map Prod.fst
  componentKeys.map (fun key =>
    let compScores := students.map (fun s => (List.lookup key s.components).getD 0)
    let compMean := calculateMean compScores
    { name := key
      mean := compMean
      median := calculateMedian compScores
      mode := calculateMode compScores
      stdDev := calculateStdDev compScores compMean
      min := calculateMin compScores
      max := calculateMax compScores
      correlationWithTotal := calculateCorrelation compScores scores })

/-- One insertion step of the stable descending-by-`mean` sort modelling
`[...componentStats].sort((a, b) => b.mean - a.mean)`: the new element
goes before the first element whose mean is `≤` its own.  Since
`sortDesc` inserts each element into the sorted suffix that follows it,
the inserted element is always original-order-earlier than the list it
is inserted into, so placing it before equal means preserves stability
(`Array.prototype.sort` is stable per ES2019). -/
def insertDesc (c : ComponentStat) : List ComponentStat → List ComponentStat
  | [] => [c]
  | d :: ds => if d.mean ≤ c.mean then c :: d :: ds else d :: insertDesc c ds

/-- Stable sort of component stats by descending mean. -/
def sortDesc : List ComponentStat → List ComponentStat
  | [] => []
  | c :: cs => insertDesc c (sortDesc cs)

/-- `sortedComponents[0]?.name || 'N/A'` / the same at the last index:
`undefined` (empty list) and an empty-string name are both falsy and give
`'N/A'`. -/
def nameOrNA (c? : Option ComponentStat) : String :=
  match c? with
  | none => "N/A"
  | some c => if c.name = "" then "N/A" else c.name

/-- `performFullAnalysis` from `geminiService.ts`. -/
noncomputable def performFullAnalysis (students : List StudentData) : AnalysisResult :=
  let componentStats := componentStatsOf students
  let sortedComponents := sortDesc componentStats
  { summary := summaryOf students
    componentStats := componentStats
    strongestComponent := nameOrNA sortedComponents.head?
    weakestComponent := nameOrNA sortedComponents.getLast? }

/-! ## AI prompt construction (`generateEducationalActionPlan`) -/

/-- Fixed-point decimal rendering of a rounded scaled integer, used to
model `Number.prototype.toFixed`: pad with leading zeros to at least
`d + 1` digits and insert the decimal point `d` places from the right. -/
def fixedString (n : ℤ) (d : ℕ) : String :=
  let s := toString n.natAbs
  let s := String.mk (List.replicate (d + 1 - s.length) '0') ++ s
  let k := s.length - d
  (if n < 0 then "-" else "") ++ s.take k ++
    (if d = 0 then "" else "." ++ s.drop k)

/-- `toFixed(d)` on a rational score.  Rounding of the scaled value is
modelled by `round` (nearest, ties up) — adequate for exact rationals. -/
def ratToFixed (q : ℚ) (d : ℕ) : String :=
  fixedString (round (q * (10 : ℚ) ^ d)) d

/-- `toFixed(d)` on a real (needed for the correlation field). -/
noncomputable def realToFixed (x : ℝ) (d : ℕ) : String :=
  fixedString (round (x * (10 : ℝ) ^ d)) d

/-- One line of the `Component Details` block:
`- ${c.name}: Mean ${c.mean.toFixed(1)}, Correlation ${c.correlationWithTotal.toFixed(2)}`. -/
noncomputable def componentLine (c : ComponentStat) : String :=
  "- " ++ c.name ++ ": Mean " ++ ratToFixed c.mean 1 ++
    ", Correlation " ++ realToFixed c.correlationWithTotal 2

/-- The prompt string built by `generateEducationalActionPlan`.  Only the
interpolated fields are kept verbatim; the surrounding fixed prose is
reproduced in condensed form (its exact wording carries no data).  The
pass rate is `(passCount / (passCount + failCount)) * 100` in rational
arithmetic (the JavaScript `NaN` for an empty population renders as `0.0`
here; the claims do not depend on that corner). -/
noncomputable def generateEducationalActionPlanPrompt (analysis : FullAnalysis) : String :=
  let passRate : ℚ :=
    ((analysis.summary.passCount : ℚ) /
      ((analysis.summary.passCount : ℚ) + (analysis.summary.failCount : ℚ))) * 100
  "Role: Educational Data Analyst Expert.\n" ++
  "Task: Analyze the following academic data summary and generate specific, actionable educational plans.\n" ++
  "Data Summary:\n" ++
  "- Overall Mean Score: " ++ ratToFixed analysis.summary.mean 1 ++ "%\n" ++
  "- Standard Deviation: " ++ realToFixed analysis.summary.stdDev 1 ++ "\n" ++
  "- Pass Rate: " ++ ratToFixed passRate 1 ++ "%\n" ++
  "- Failing Students: " ++ toString analysis.summary.failCount ++ "\n" ++
  "- Strongest Component: " ++ analysis.strongestComponent ++ "\n" ++
  "- Weakest Component: " ++ analysis.weakestComponent ++ "\n" ++
  "Component Details (Correlation with Final Grade):\n" ++
  String.intercalate "\n" (analysis.componentStats.map componentLine) ++ "\n" ++
  "Please output a JSON object with the keys highAchieverPlan, averageStudentPlan, atRiskPlan, teacherActions, hodInsights, each a detailed Markdown string. Make the advice specific to the data provided. Ensure the JSON is valid."

/-! ## Spec-side selector definitions (for claim C1)

These three definitions follow the *specification's words*, not the
source: the first element attaining the maximal mean, and the first /
last element attaining the minimal mean.  They are compared against the
sort-based selection performed by `performFullAnalysis`. -/

/-- First element of the list attaining the maximal `mean` (spec side). -/
def firstArgmax : List ComponentStat → Option ComponentStat
  | [] => none
  | c :: cs =>
    match firstArgmax cs with
    | none => some c
    | some d => if d.mean ≤ c.mean then some c else some d

/-- Last element of the list attaining the minimal `mean` (spec side). -/
def lastArgmin : List ComponentStat → Option ComponentStat
  | [] => none
  | c :: cs =>
    match lastArgmin cs with
    | none => some c
    | some d => if d.mean ≤ c.mean then some d else some c

/-- First element of the list attaining the minimal `mean` (spec side,
used to state the tie-break the claim asserts for the weakest
component). -/
def firstArgmin : List ComponentStat → Option ComponentStat
  | [] => none
  | c :: cs =>
    match firstArgmin cs with
    | none => some c
    | some d => if c.mean ≤ d.mean then some c else some d

/-- Name of the first max-mean component, `"N/A"` for an empty list. -/
def firstArgmaxName (l : List ComponentStat) : String :=
  ((firstArgmax l).map (·.name)).getD "N/A"

/-- Name of the last min-mean component, `"N/A"` for an empty list. -/
def lastArgminName (l : List ComponentStat) : String :=
  ((lastArgmin l).map (·.name)).getD "N/A"

/-- Name of the first min-mean component, `"N/A"` for an empty list. -/
def firstArgminName (l : List ComponentStat) : String :=
  ((firstArgmin l).map (·.name)).getD "N/A"

/-! ## Classifier characterization -/

/-- Band characterization of `determineGroup` (shared helper). -/
lemma determineGroup_iff (p : ℚ) :
    (determineGroup p = .HighAchiever ↔ 90 ≤ p) ∧
    (determineGroup p = .AboveAverage ↔ 75 ≤ p ∧ p < 90) ∧
    (determineGroup p = .Average ↔ 60 ≤ p ∧ p < 75) ∧
    (determineGroup p = .BelowAverage ↔ 50 ≤ p ∧ p < 60) ∧
    (determineGroup p = .AtRisk ↔ p < 50) := by
  unfold determineGroup
  split_ifs with h1 h2 h3 h4 <;>
    refine ⟨?_, ?_, ?_, ?_, ?_⟩ <;>
    simp only [reduceCtorEq, iff_true, iff_false, true_iff, false_iff, not_and, not_lt, not_le] <;>
    first
      | linarith
      | (constructor <;> linarith)
      | (intro ha; linarith)

/-- Band characterization of `determineGrade` (shared helper). -/
lemma determineGrade_iff (p : ℚ) :
    (determineGrade p = "A" ↔ 90 ≤ p) ∧
    (determineGrade p = "B" ↔ 80 ≤ p ∧ p < 90) ∧
    (determineGrade p = "C" ↔ 70 ≤ p ∧ p < 80) ∧
    (determineGrade p = "D" ↔ 60 ≤ p ∧ p < 70) ∧
    (determineGrade p = "F" ↔ p < 60) := by
  unfold determineGrade
  split_ifs with h1 h2 h3 h4 <;>
    refine ⟨?_, ?_, ?_, ?_, ?_⟩ <;>
    simp only [String.reduceEq, iff_true, iff_false, true_iff, false_iff, not_and, not_lt, not_le] <;>
    first
      | linarith
      | (constructor <;> linarith)
      | (intro ha; linarith)

/-- C3: `determineGroup` and `determineGrade` are total functions with
first-match-wins inclusive lower bounds: the five performance bands are
`[90, ∞)`, `[75, 90)`, `[60, 75)`, `[50, 60)` and `(-∞, 50)`, and the
five grades are `[90, ∞)`, `[80, 90)`, `[70, 80)`, `[60, 70)` and
`(-∞, 60)`, for every rational percentage including values below `0`
and above `100`. -/
theorem C3_classifier_bands (p : ℚ) :
    (determineGroup p = .HighAchiever ↔ 90 ≤ p) ∧
    (determineGroup p = .AboveAverage ↔ 75 ≤ p ∧ p < 90) ∧
    (determineGroup p = .Average ↔ 60 ≤ p ∧ p < 75) ∧
    (determineGroup p = .BelowAverage ↔ 50 ≤ p ∧ p < 60) ∧
    (determineGroup p = .AtRisk ↔ p < 50) ∧
    (determineGrade p = "A" ↔ 90 ≤ p) ∧
    (determineGrade p = "B" ↔ 80 ≤ p ∧ p < 90) ∧
    (determineGrade p = "C" ↔ 70 ≤ p ∧ p < 80) ∧
    (determineGrade p = "D" ↔ 60 ≤ p ∧ p < 70) ∧
    (determineGrade p = "F" ↔ p < 60) := by
  obtain ⟨g1, g2, g3, g4, g5⟩ := determineGroup_iff p
  obtain ⟨d1, d2, d3, d4, d5⟩ := determineGrade_iff p
  exact ⟨g1, g2, g3, g4, g5, d1, d2, d3, d4, d5⟩

/-! ## Empty-input sentinels -/

/-- C7: `calculateMean`, `calculateMedian`, `calculateMode`,
`calculateStdDev`, `calculateMin` and `calculateMax` all return the
sentinel `0` on the empty sequence (and, being total Lean functions,
none of them can raise). -/
theorem C7_empty_sentinels :
    calculateMean [] = 0 ∧ calculateMedian [] = 0 ∧ calculateMode [] = 0 ∧
    (∀ m : ℚ, calculateStdDev [] m = 0) ∧
    calculateMin [] = 0 ∧ calculateMax [] = 0 := by
  refine ⟨rfl, rfl, rfl, ?_, rfl, rfl⟩
  intro m
  simp [calculateStdDev]

/-! ## Population standard deviation -/

/-- C6: `calculateStdDev xs m` is the population standard deviation with
the supplied mean — the square root of the sum of squared deviations
divided by `N` (not `N − 1`); in particular
`calculateStdDev [2,4,4,4,5,5,7,9] 5 = 2`.  (The formula also holds for
the empty list, where both sides are `0`.) -/
theorem C6_stdDev_population :
    (∀ (xs : List ℚ) (m : ℚ),
      calculateStdDev xs m =
        Real.sqrt ((((xs.map (fun x => (x - m) ^ 2)).sum : ℚ) : ℝ) / (xs.length : ℝ))) ∧
    calculateStdDev [2, 4, 4, 4, 5, 5, 7, 9] 5 = 2 := by
  have main : ∀ (xs : List ℚ) (m : ℚ),
      calculateStdDev xs m =
        Real.sqrt ((((xs.map (fun x => (x - m) ^ 2)).sum : ℚ) : ℝ) / (xs.length : ℝ)) := by
    intro xs m
    unfold calculateStdDev calculateMean
    rcases Nat.eq_zero_or_pos xs.length with h0 | hpos
    · rcases List.eq_nil_of_length_eq_zero h0 with rfl
      simp
    · have hne : xs.length ≠ 0 := hpos.ne'
      simp only [hne, if_false, List.length_map]
      push_cast
      try rfl
      try ring_nf
  refine ⟨main, ?_⟩
  rw [main]
  have hsum : (([2, 4, 4, 4, 5, 5, 7, 9] : List ℚ).map (fun x => (x - 5) ^ 2)).sum = 32 := by
    norm_num [List.map_cons, List.map_nil, List.sum_cons, List.sum_nil]
  rw [hsum]
  have hlen : (([2, 4, 4, 4, 5, 5, 7, 9] : List ℚ).length : ℝ) = 8 := by norm_num
  rw [hlen]
  rw [show (((32 : ℚ) : ℝ) / 8) = (2 : ℝ) ^ 2 by norm_num]
  exact Real.sqrt_sq (by norm_num)

/-! ## Correlation -/

/-- Sums of squared deviations are nonnegative. -/
lemma sumSqDiff_nonneg (x : List ℚ) (m : ℚ) : 0 ≤ sumSqDiff x m := by
  unfold sumSqDiff
  apply List.sum_nonneg
  intro a ha
  rcases List.mem_map.mp ha with ⟨b, _, rfl⟩
  exact mul_self_nonneg _

/-- Spec-side definition (follows the specification's words, to be
compared with `calculateCorrelation`): the Pearson product-moment
correlation coefficient, covariance sum over the product of the square
roots of the two squared-deviation sums. -/
noncomputable def pearsonSpec (x y : List ℚ) : ℝ :=
  ((covSum x y (calculateMean x) (calculateMean y) : ℚ) : ℝ) /
    (Real.sqrt ((sumSqDiff x (calculateMean x) : ℚ) : ℝ) *
      Real.sqrt ((sumSqDiff y (calculateMean y) : ℚ) : ℝ))

/-- C4: `calculateCorrelation` returns the sentinel `0` whenever the
lengths differ, either input is empty, or either sequence has zero
variance (zero sum of squared deviations); otherwise it returns the
Pearson product-moment correlation coefficient.  (Being a total Lean
function, it never raises.) -/
theorem C4_correlation_guards (x y : List ℚ) :
    ((x.length ≠ y.length ∨ x = [] ∨ y = [] ∨
        sumSqDiff x (calculateMean x) = 0 ∨ sumSqDiff y (calculateMean y) = 0) →
      calculateCorrelation x y = 0) ∧
    (x.length = y.length → x ≠ [] →
      sumSqDiff x (calculateMean x) ≠ 0 → sumSqDiff y (calculateMean y) ≠ 0 →
      calculateCorrelation x y = pearsonSpec x y) := by
  constructor
  · intro h
    unfold calculateCorrelation
    dsimp only
    split_ifs with hg hd
    · rfl
    · rfl
    · exfalso
      rcases h with h | h | h | h | h
      · exact hg (Or.inl h)
      · exact hg (Or.inr (by simp [h]))
      · rcases Decidable.em (x.length = y.length) with he | he
        · exact hg (Or.inr (by rw [he, h]; rfl))
        · exact hg (Or.inl he)
      · exact hd (by rw [h]; push_cast; simp)
      · exact hd (by rw [h]; push_cast; simp)
  · intro hlen hne hx hy
    unfold calculateCorrelation pearsonSpec
    dsimp only
    have hg : ¬(x.length ≠ y.length ∨ x.length = 0) := by
      push_neg
      exact ⟨hlen, by simpa [List.length_eq_zero] using hne⟩
    rw [if_neg hg]
    have hx0 : (0 : ℝ) < ((sumSqDiff x (calculateMean x) : ℚ) : ℝ) := by
      have := sumSqDiff_nonneg x (calculateMean x)
      have : (0 : ℚ) < sumSqDiff x (calculateMean x) := lt_of_le_of_ne this (Ne.symm hx)
      exact_mod_cast this
    have hy0 : (0 : ℝ) < ((sumSqDiff y (calculateMean y) : ℚ) : ℝ) := by
      have := sumSqDiff_nonneg y (calculateMean y)
      have : (0 : ℚ) < sumSqDiff y (calculateMean y) := lt_of_le_of_ne this (Ne.symm hy)
      exact_mod_cast this
    have hd : Real.sqrt (((sumSqDiff x (calculateMean x) : ℚ) : ℝ) *
        ((sumSqDiff y (calculateMean y) : ℚ) : ℝ)) ≠ 0 := by
      rw [Real.sqrt_ne_zero (by positivity)]
      positivity
    rw [if_neg hd]
    rw [Real.sqrt_mul hx0.le]

/-- Witness for C4: the guard branch at mismatched lengths, and the
Pearson branch at a concrete nondegenerate pair. -/
theorem C4_witness :
    calculateCorrelation [1, 2] [1] = 0 ∧
    calculateCorrelation [1, 2] [3, 5] = pearsonSpec [1, 2] [3, 5] := by
  constructor
  · exact (C4_correlation_guards [1, 2] [1]).1 (Or.inl (by norm_num))
  · exact (C4_correlation_guards [1, 2] [3, 5]).2 (by norm_num) (by simp)
      (by norm_num [sumSqDiff, calculateMean, List.map_cons, List.map_nil,
        List.sum_cons, List.sum_nil])
      (by norm_num [sumSqDiff, calculateMean, List.map_cons, List.map_nil,
        List.sum_cons, List.sum_nil])

/-- The covariance accumulator is symmetric in its two sequences. -/
lemma covSum_comm (x y : List ℚ) (mx my : ℚ) :
    covSum x y mx my = covSum y x my mx := by
  unfold covSum
  rw [List.zipWith_comm]
  have hf : (fun (b a : ℚ) => (a - mx) * (b - my)) = (fun (b a : ℚ) => (b - my) * (a - mx)) := by
    funext b a
    ring
  rw [hf]

/-- C8: `calculateCorrelation` is symmetric in its two arguments. -/
theorem C8_correlation_symmetric (x y : List ℚ) :
    calculateCorrelation x y = calculateCorrelation y x := by
  by_cases hlen : x.length = y.length
  · by_cases hx : x.length = 0
    · unfold calculateCorrelation
      dsimp only
      rw [if_pos (Or.inr hx), if_pos (Or.inr (by omega))]
    · unfold calculateCorrelation
      dsimp only
      have hg1 : ¬(x.length ≠ y.length ∨ x.length = 0) := by
        push_neg
        exact ⟨hlen, hx⟩
      have hg2 : ¬(y.length ≠ x.length ∨ y.length = 0) := by
        push_neg
        exact ⟨hlen.symm, by omega⟩
      rw [if_neg hg1, if_neg hg2]
      rw [covSum_comm x y, mul_comm ((sumSqDiff x (calculateMean x) : ℚ) : ℝ)]
  · unfold calculateCorrelation
    dsimp only
    rw [if_pos (Or.inl hlen), if_pos (Or.inl (Ne.symm hlen))]

/-! ## Row-normalizer lemmas -/

/-- `parseFloat('junk')` is `NaN`. -/
lemma parseFloatString_junk : parseFloatString "junk" = none := by decide

/-- `parseFloat('')` is `NaN`. -/
lemma parseFloatString_empty : parseFloatString "" = none := by decide

/-- `parseFloat('0')` is `0`. -/
lemma parseFloatString_zero : parseFloatString "0" = some 0 := by
  rw [show parseFloatString "0" =
    some (1 * (((0 : ℕ) : ℚ) + ((0 : ℕ) : ℚ) / (10 : ℚ) ^ (0 : ℕ)) * (10 : ℚ) ^ (0 : ℤ)) from rfl]
  norm_num

/-- `parseFloat('85')` is `85`. -/
lemma parseFloatString_85 : parseFloatString "85" = some 85 := by
  rw [show parseFloatString "85" =
    some (1 * (((85 : ℕ) : ℚ) + ((0 : ℕ) : ℚ) / (10 : ℚ) ^ (0 : ℕ)) * (10 : ℚ) ^ (0 : ℤ)) from rfl]
  norm_num

/-- The component coercion `parseFloat(String(rawVal || '0'))` with
`NaN → 0` equals "parsed value, or `0` when the cell is absent, null or
fails to parse": the falsy defaults (`undefined`, `null`, `''`, `0`)
all parse-or-default to `0` anyway. -/
lemma jsCoerce_eq (v : JSVal) : jsCoerce v = (jsParseFloatVal v).getD 0 := by
  cases v with
  | str s =>
    by_cases hs : s = ""
    · subst hs
      simp [jsCoerce, truthy, jsParseFloatVal, parseFloatString_zero, parseFloatString_empty]
    · simp [jsCoerce, truthy, hs, jsParseFloatVal]
  | num q =>
    by_cases hq : q = 0
    · subst hq
      simp [jsCoerce, truthy, jsParseFloatVal, parseFloatString_zero]
    · simp [jsCoerce, truthy, hq, jsParseFloatVal]
  | null => simp [jsCoerce, truthy, jsParseFloatVal, parseFloatString_zero]
  | undefinedV => simp [jsCoerce, truthy, jsParseFloatVal, parseFloatString_zero]

/-- Unfolding the `componentCols.forEach` accumulation of
`onMappingConfirmed`: the built association list is the mapped column
list, and the running sum is the sum of the coerced values. -/
lemma compFold (row : RawRow) (cols : List String) (acc : List (String × ℚ)) (s : ℚ) :
    cols.foldl (fun (acc : List (String × ℚ) × ℚ) col =>
        let cleanVal := jsCoerce (getSmartValue row col)
        (acc.1 ++ [(col, cleanVal)], acc.2 + cleanVal)) (acc, s) =
      (acc ++ cols.map (fun col => (col, jsCoerce (getSmartValue row col))),
        s + (cols.map (fun col => jsCoerce (getSmartValue row col))).sum) := by
  induction cols generalizing acc s with
  | nil => simp
  | cons c cs ih =>
    simp only [List.foldl_cons, List.map_cons, List.sum_cons]
    rw [ih]
    simp [add_assoc]

/-- The `components` of a normalized student: one entry per mapped
component column, holding the coerced cell value. -/
lemma mkStudent_components (m : ColumnMapping) (idx : ℕ) (row : RawRow) :
    (mkStudent m idx row).components =
      m.componentCols.map (fun col => (col, jsCoerce (getSmartValue row col))) := by
  unfold mkStudent
  dsimp only
  rw [compFold]
  simp

/-- The `name` of a normalized student is the resolved name. -/
lemma mkStudent_name (m : ColumnMapping) (idx : ℕ) (row : RawRow) :
    (mkStudent m idx row).name = resolvedName row m := rfl

/-- The `totalScore` of a normalized student: the parsed total column
when it is mapped, truthy and parses, otherwise the component sum. -/
lemma mkStudent_totalScore (m : ColumnMapping) (idx : ℕ) (row : RawRow) :
    (mkStudent m idx row).totalScore =
      match m.totalCol with
      | none => (m.componentCols.map (fun col => jsCoerce (getSmartValue row col))).sum
      | some t =>
        if t = "" then (m.componentCols.map (fun col => jsCoerce (getSmartValue row col))).sum
        else
          (jsParseFloatVal (getSmartValue row t)).getD
            ((m.componentCols.map (fun col => jsCoerce (getSmartValue row col))).sum) := by
  unfold mkStudent
  dsimp only
  rw [compFold]
  simp only [List.nil_append, zero_add]
  cases m.totalCol with
  | none => rfl
  | some t =>
    by_cases ht : t = ""
    · simp [ht]
    · simp only [ht, if_false]
      cases jsParseFloatVal (getSmartValue row t) <;> simp

/-- Filtering a mapped list is mapping the filtered list. -/
lemma filter_of_map {α β : Type} (f : α → β) (p : β → Bool) (l : List α) :
    (l.map f).filter p = (l.filter (fun a => p (f a))).map f := by
  induction l with
  | nil => rfl
  | cons a t ih =>
    by_cases h : p (f a) = true <;> simp [List.filter_cons, h, ih]

/-- Filtering the enumerated list on a row predicate keeps as many
elements as filtering the rows themselves. -/
lemma enumFrom_filter_length {α : Type} (q : α → Bool) (rows : List α) :
    ∀ n, ((List.enumFrom n rows).filter (fun p => q p.2)).length = (rows.filter q).length := by
  induction rows with
  | nil => intro n; rfl
  | cons r t ih =>
    intro n
    by_cases h : q r = true <;> simp [List.enumFrom, List.filter_cons, h, ih]

/-- A filter and its complement split the length of a list. -/
lemma length_filter_add_not {α : Type} (p : α → Bool) (l : List α) :
    (l.filter p).length + (l.filter (fun a => !(p a))).length = l.length := by
  induction l with
  | nil => rfl
  | cons a t ih =>
    by_cases h : p a = true <;> simp [List.filter_cons, h] <;> omega

/-- A name whose trim is non-empty is itself non-empty. -/
lemma name_keep_iff (n : String) : (n ≠ "" ∧ jsTrim n ≠ "") ↔ jsTrim n ≠ "" := by
  constructor
  · exact fun h => h.2
  · intro h
    refine ⟨?_, h⟩
    intro h0
    subst h0
    exact h rfl

/-- C5: the normalizer emits exactly one record, in order, for each row
whose resolved name is non-empty after trimming (the resolved name being
the string coerced from the two-phase smart lookup, empty when the
lookup result is falsy), and no record for any other row; consequently
the output count is the input row count minus the dropped-row count. -/
theorem C5_name_population_filter (rows : List RawRow) (m : ColumnMapping) :
    processRows rows m =
      (rows.enum.filter (fun p => jsTrim (resolvedName p.2 m) ≠ "")).map
        (fun p => mkStudent m p.1 p.2) ∧
    (processRows rows m).length =
      rows.length - (rows.filter (fun r => jsTrim (resolvedName r m) = "")).length := by
  have heq : processRows rows m =
      (rows.enum.filter (fun p => jsTrim (resolvedName p.2 m) ≠ "")).map
        (fun p => mkStudent m p.1 p.2) := by
    unfold processRows
    rw [filter_of_map]
    congr 1
    apply List.filter_congr
    intro p _
    rw [mkStudent_name]
    simp only [decide_eq_decide]
    exact name_keep_iff (resolvedName p.2 m)
  refine ⟨heq, ?_⟩
  rw [heq, List.length_map]
  have h1 : ((rows.enum.filter (fun p => jsTrim (resolvedName p.2 m) ≠ "")).length) =
      (rows.filter (fun r => jsTrim (resolvedName r m) ≠ "")).length := by
    unfold List.enum
    exact enumFrom_filter_length (fun r => decide (jsTrim (resolvedName r m) ≠ "")) rows 0
  rw [h1]
  have h2 := length_filter_add_not (fun r => decide (jsTrim (resolvedName r m) = "")) rows
  have h3 : (rows.filter (fun r => jsTrim (resolvedName r m) ≠ "")) =
      (rows.filter (fun r => !(decide (jsTrim (resolvedName r m) = "")))) := by
    apply List.filter_congr
    intro r _
    simp
  rw [h3]
  omega

/-- C2: each component cell normalizes to its parsed numeric value, with
absent or unparseable cells coerced to `0`; `totalScore` is the parsed
value of the mapped total column when that parse succeeds, and the sum
of the coerced component values when the total column is unmapped (or
falsy) or fails to parse.  The two concrete scenarios of the claim are
included. -/
theorem C2_coercion_and_total :
    (∀ (row : RawRow) (m : ColumnMapping) (idx : ℕ),
      (mkStudent m idx row).components =
        m.componentCols.map (fun col => (col, jsCoerce (getSmartValue row col))) ∧
      (mkStudent m idx row).totalScore =
        (match m.totalCol with
         | none => (((mkStudent m idx row).components).map Prod.snd).sum
         | some t =>
           if t = "" then (((mkStudent m idx row).components).map Prod.snd).sum
           else
             (jsParseFloatVal (getSmartValue row t)).getD
               ((((mkStudent m idx row).components).map Prod.snd).sum))) ∧
    (∀ v : JSVal, jsCoerce v = (jsParseFloatVal v).getD 0) ∧
    (mkStudent ⟨"Name", "", ["Quiz1", "Quiz2"], none⟩ 0
      [("Name", .str "Ali"), ("Quiz1", .num 40), ("Quiz2", .str "junk")]).totalScore = 40 ∧
    (mkStudent ⟨"Name", "", [], some "Final"⟩ 0
      [("Name", .str "Ali"), ("Final", .str "85")]).totalScore = 85 := by
  have hmapsum : ∀ (row : RawRow) (m : ColumnMapping) (idx : ℕ),
      (((mkStudent m idx row).components).map Prod.snd).sum =
        (m.componentCols.map (fun col => jsCoerce (getSmartValue row col))).sum := by
    intro row m idx
    rw [mkStudent_components, List.map_map]
    rfl
  refine ⟨?_, jsCoerce_eq, ?_, ?_⟩
  · intro row m idx
    refine ⟨mkStudent_components m idx row, ?_⟩
    rw [mkStudent_totalScore]
    cases m.totalCol with
    | none => rw [hmapsum]
    | some t =>
      by_cases ht : t = "" <;> simp only [ht, if_true, if_false] <;> rw [hmapsum]
  · have g1 : getSmartValue [("Name", .str "Ali"), ("Quiz1", .num 40), ("Quiz2", .str "junk")]
        "Quiz1" = .num 40 := by decide
    have g2 : getSmartValue [("Name", .str "Ali"), ("Quiz1", .num 40), ("Quiz2", .str "junk")]
        "Quiz2" = .str "junk" := by decide
    rw [mkStudent_totalScore]
    simp only [List.map_cons, List.map_nil, List.sum_cons, List.sum_nil, g1, g2]
    rw [jsCoerce_eq, jsCoerce_eq]
    simp [jsParseFloatVal, parseFloatString_junk]
  · have g3 : getSmartValue [("Name", .str "Ali"), ("Final", .str "85")] "Final" =
        .str "85" := by decide
    rw [mkStudent_totalScore]
    simp only [g3]
    simp [jsParseFloatVal, parseFloatString_85]

/-! ## Grade-band point lemmas -/

/-- Percentages at or above 90 grade as A. -/
lemma grade_A {p : ℚ} (h : 90 ≤ p) : determineGrade p = "A" :=
  (determineGrade_iff p).1.mpr h

/-- Percentages in `[80, 90)` grade as B. -/
lemma grade_B {p : ℚ} (h1 : 80 ≤ p) (h2 : p < 90) : determineGrade p = "B" :=
  (determineGrade_iff p).2.1.mpr ⟨h1, h2⟩

/-- Percentages in `[70, 80)` grade as C. -/
lemma grade_C {p : ℚ} (h1 : 70 ≤ p) (h2 : p < 80) : determineGrade p = "C" :=
  (determineGrade_iff p).2.2.1.mpr ⟨h1, h2⟩

/-- Percentages in `[60, 70)` grade as D. -/
lemma grade_D {p : ℚ} (h1 : 60 ≤ p) (h2 : p < 70) : determineGrade p = "D" :=
  (determineGrade_iff p).2.2.2.1.mpr ⟨h1, h2⟩

/-- Percentages below 60 grade as F. -/
lemma grade_F {p : ℚ} (h : p < 60) : determineGrade p = "F" :=
  (determineGrade_iff p).2.2.2.2.mpr h

/-! ## Summary partition invariant -/

/-- C10: the summary partitions the population exactly — pass plus fail
counts equal the student count, the five grade bins sum to the student
count, the pass count is the sum of the A/B/C/D bins, and the fail count
is the F bin. -/
theorem C10_summary_partitions (students : List StudentData) :
    ((performFullAnalysis students).summary.passCount +
      (performFullAnalysis students).summary.failCount = students.length) ∧
    ((performFullAnalysis students).summary.gradeDist.A +
      (performFullAnalysis students).summary.gradeDist.B +
      (performFullAnalysis students).summary.gradeDist.C +
      (performFullAnalysis students).summary.gradeDist.D +
      (performFullAnalysis students).summary.gradeDist.F = students.length) ∧
    ((performFullAnalysis students).summary.passCount =
      (performFullAnalysis students).summary.gradeDist.A +
      (performFullAnalysis students).summary.gradeDist.B +
      (performFullAnalysis students).summary.gradeDist.C +
      (performFullAnalysis students).summary.gradeDist.D) ∧
    ((performFullAnalysis students).summary.failCount =
      (performFullAnalysis students).summary.gradeDist.F) := by
  have hsum : (performFullAnalysis students).summary = summaryOf students := rfl
  rw [hsum]
  clear hsum
  simp only [summaryOf]
  induction students with
  | nil => simp
  | cons s t ih =>
    obtain ⟨ih1, ih2, ih3, ih4⟩ := ih
    rcases le_or_lt 90 s.percentage with h90 | h90
    · have hg : determineGrade s.percentage = "A" := grade_A h90
      have hp : 60 ≤ s.percentage := by linarith
      have hnf : ¬(s.percentage < 60) := not_lt.mpr hp
      simp only [List.filter_cons, hg, hp, hnf, List.length_cons]
      simp
      omega
    · rcases le_or_lt 80 s.percentage with h80 | h80
      · have hg : determineGrade s.percentage = "B" := grade_B h80 h90
        have hp : 60 ≤ s.percentage := by linarith
        have hnf : ¬(s.percentage < 60) := not_lt.mpr hp
        simp only [List.filter_cons, hg, hp, hnf, List.length_cons]
        simp
        omega
      · rcases le_or_lt 70 s.percentage with h70 | h70
        · have hg : determineGrade s.percentage = "C" := grade_C h70 h80
          have hp : 60 ≤ s.percentage := by linarith
          have hnf : ¬(s.percentage < 60) := not_lt.mpr hp
          simp only [List.filter_cons, hg, hp, hnf, List.length_cons]
          simp
          omega
        · rcases le_or_lt 60 s.percentage with h60 | h60
          · have hg : determineGrade s.percentage = "D" := grade_D h60 h70
            have hnf : ¬(s.percentage < 60) := not_lt.mpr h60
            simp only [List.filter_cons, hg, h60, hnf, List.length_cons]
            simp
            omega
          · have hg : determineGrade s.percentage = "F" := grade_F h60
            have hnp : ¬(60 ≤ s.percentage) := not_le.mpr h60
            simp only [List.filter_cons, hg, h60, hnp, List.length_cons]
            simp
            omega

/-! ## Stable descending sort: head and last characterization -/

/-- Insertion never produces the empty list. -/
lemma insertDesc_ne_nil (c : ComponentStat) (l : List ComponentStat) :
    insertDesc c l ≠ [] := by
  cases l with
  | nil => simp [insertDesc]
  | cons d ds =>
    unfold insertDesc
    split_ifs <;> simp

/-- Members of an insertion are the inserted element or old members. -/
lemma mem_insertDesc {x c : ComponentStat} {l : List ComponentStat}
    (hx : x ∈ insertDesc c l) : x = c ∨ x ∈ l := by
  induction l with
  | nil =>
    simp [insertDesc] at hx
    exact Or.inl hx
  | cons d ds ih =>
    unfold insertDesc at hx
    split_ifs at hx with h
    · rcases List.mem_cons.mp hx with hx | hx
      · exact Or.inl hx
      · exact Or.inr hx
    · rcases List.mem_cons.mp hx with hx | hx
      · exact Or.inr (by simp [hx])
      · rcases ih hx with hx | hx
        · exact Or.inl hx
        · exact Or.inr (by simp [hx])

/-- Insertion preserves the descending-by-mean pairwise ordering. -/
lemma pairwise_insertDesc (c : ComponentStat) (l : List ComponentStat)
    (hp : l.Pairwise (fun a b => b.mean ≤ a.mean)) :
    (insertDesc c l).Pairwise (fun a b => b.mean ≤ a.mean) := by
  induction l with
  | nil => simp [insertDesc]
  | cons d ds ih =>
    rcases List.pairwise_cons.mp hp with ⟨hd, hds⟩
    unfold insertDesc
    split_ifs with h
    · refine List.pairwise_cons.mpr ⟨?_, hp⟩
      intro x hx
      rcases List.mem_cons.mp hx with rfl | hx
      · exact h
      · exact le_trans (hd x hx) h
    · refine List.pairwise_cons.mpr ⟨?_, ih hds⟩
      intro x hx
      rcases mem_insertDesc hx with rfl | hx
      · exact le_of_lt (lt_of_not_le h)
      · exact hd x hx

/-- The sort output is pairwise descending by mean. -/
lemma sortDesc_pairwise (l : List ComponentStat) :
    (sortDesc l).Pairwise (fun a b => b.mean ≤ a.mean) := by
  induction l with
  | nil => simp [sortDesc]
  | cons c cs ih => exact pairwise_insertDesc c (sortDesc cs) ih

/-- Head of an insertion: the new element wins exactly when its mean is
at least the old head's. -/
lemma head?_insertDesc (c : ComponentStat) (l : List ComponentStat) :
    (insertDesc c l).head? =
      match l.head? with
      | none => some c
      | some d => if d.mean ≤ c.mean then some c else some d := by
  cases l with
  | nil => rfl
  | cons d ds =>
    unfold insertDesc
    split_ifs with h <;> simp [h]

/-- Head of the stable descending sort is the first max-mean element. -/
lemma head?_sortDesc (l : List ComponentStat) :
    (sortDesc l).head? = firstArgmax l := by
  induction l with
  | nil => rfl
  | cons c cs ih =>
    show (insertDesc c (sortDesc cs)).head? = firstArgmax (c :: cs)
    rw [head?_insertDesc, ih]
    cases h : firstArgmax cs <;> simp [firstArgmax, h]

/-- Any element some `getLast?` returns is a member. -/
lemma mem_of_getLast? {α : Type} {l : List α} {a : α} (h : l.getLast? = some a) :
    a ∈ l := by
  induction l with
  | nil => simp at h
  | cons x xs ih =>
    cases xs with
    | nil =>
      simp at h
      simp [h]
    | cons y ys =>
      rw [List.getLast?_cons_cons] at h
      exact List.mem_cons_of_mem x (ih h)

/-- Every nonempty list has a last element. -/
lemma getLast?_cons_some {α : Type} (a : α) (l : List α) :
    ∃ b, (a :: l).getLast? = some b := by
  induction l generalizing a with
  | nil => exact ⟨a, rfl⟩
  | cons x xs ih =>
    rcases ih x with ⟨b, hb⟩
    exact ⟨b, by rw [List.getLast?_cons_cons]; exact hb⟩

/-- Last element of inserting into a pairwise-descending list: the old
last element stays unless the new element's mean is strictly smaller. -/
lemma getLast?_insertDesc (c : ComponentStat) (l : List ComponentStat)
    (hp : l.Pairwise (fun a b => b.mean ≤ a.mean)) :
    (insertDesc c l).getLast? =
      match l.getLast? with
      | none => some c
      | some d => if d.mean ≤ c.mean then some d else some c := by
  induction l with
  | nil => rfl
  | cons d ds ih =>
    rcases List.pairwise_cons.mp hp with ⟨hd, hds⟩
    unfold insertDesc
    split_ifs with h
    · rw [List.getLast?_cons_cons]
      obtain ⟨e, he⟩ := getLast?_cons_some d ds
      rw [he]
      have hle : e.mean ≤ c.mean := by
        rcases List.mem_cons.mp (mem_of_getLast? he) with rfl | hm
        · exact h
        · exact le_trans (hd e hm) h
      dsimp only
      rw [if_pos hle]
    · cases hds0 : ds with
      | nil =>
        subst hds0
        simp [insertDesc, h]
      | cons e' es =>
        subst hds0
        have hne := insertDesc_ne_nil c (e' :: es)
        cases hic : insertDesc c (e' :: es) with
        | nil => exact absurd hic hne
        | cons z zs =>
          rw [List.getLast?_cons_cons, ← hic, ih hds, List.getLast?_cons_cons]

/-- Last of the stable descending sort is the last min-mean element. -/
lemma getLast?_sortDesc (l : List ComponentStat) :
    (sortDesc l).getLast? = lastArgmin l := by
  induction l with
  | nil => rfl
  | cons c cs ih =>
    show (insertDesc c (sortDesc cs)).getLast? = lastArgmin (c :: cs)
    rw [getLast?_insertDesc c (sortDesc cs) (sortDesc_pairwise cs), ih]
    cases h : lastArgmin cs <;> simp [lastArgmin, h]

/-- The first max-mean element is a member of the list. -/
lemma firstArgmax_mem {l : List ComponentStat} {c : ComponentStat}
    (h : firstArgmax l = some c) : c ∈ l := by
  induction l with
  | nil => simp [firstArgmax] at h
  | cons d ds ih =>
    simp only [firstArgmax] at h
    cases h2 : firstArgmax ds with
    | none =>
      rw [h2] at h
      simp at h
      simp [h]
    | some e =>
      rw [h2] at h
      dsimp only at h
      split_ifs at h with hle
      · simp at h
        simp [h]
      · simp at h
        subst h
        exact List.mem_cons_of_mem d (ih h2)

/-- The last min-mean element is a member of the list. -/
lemma lastArgmin_mem {l : List ComponentStat} {c : ComponentStat}
    (h : lastArgmin l = some c) : c ∈ l := by
  induction l with
  | nil => simp [lastArgmin] at h
  | cons d ds ih =>
    simp only [lastArgmin] at h
    cases h2 : lastArgmin ds with
    | none =>
      rw [h2] at h
      simp at h
      simp [h]
    | some e =>
      rw [h2] at h
      dsimp only at h
      split_ifs at h with hle
      · simp at h
        subst h
        exact List.mem_cons_of_mem d (ih h2)
      · simp at h
        simp [h]

/-- A nonempty list has a first max-mean element. -/
lemma firstArgmax_of_ne_nil {l : List ComponentStat} (h : l ≠ []) :
    ∃ c, firstArgmax l = some c := by
  cases l with
  | nil => exact absurd rfl h
  | cons d ds =>
    simp only [firstArgmax]
    cases h2 : firstArgmax ds with
    | none => exact ⟨d, rfl⟩
    | some e =>
      dsimp only
      split_ifs <;> exact ⟨_, rfl⟩

/-- A nonempty list has a last min-mean element. -/
lemma lastArgmin_of_ne_nil {l : List ComponentStat} (h : l ≠ []) :
    ∃ c, lastArgmin l = some c := by
  cases l with
  | nil => exact absurd rfl h
  | cons d ds =>
    simp only [lastArgmin]
    cases h2 : lastArgmin ds with
    | none => exact ⟨d, rfl⟩
    | some e =>
      dsimp only
      split_ifs <;> exact ⟨_, rfl⟩

/-! ## Strongest / weakest component selection (C1) -/

/-- C1 (amended): when the component-stat list is non-empty and all
component names are non-empty, the strongest component is the
*first-encountered* component with maximal mean, and the weakest
component is the *last-encountered* component with minimal mean — ties
at the maximum are won by the first in enumeration order, but ties at
the minimum are won by the last, because the code takes the final
element of a stable descending sort. -/
theorem C1_strongest_first_weakest_last (students : List StudentData)
    (hne : componentStatsOf students ≠ [])
    (hnames : ∀ c ∈ componentStatsOf students, c.name ≠ "") :
    (performFullAnalysis students).strongestComponent =
      firstArgmaxName (componentStatsOf students) ∧
    (performFullAnalysis students).weakestComponent =
      lastArgminName (componentStatsOf students) := by
  have hs : (performFullAnalysis students).strongestComponent =
      nameOrNA (sortDesc (componentStatsOf students)).head? := rfl
  have hw : (performFullAnalysis students).weakestComponent =
      nameOrNA (sortDesc (componentStatsOf students)).getLast? := rfl
  rw [hs, hw, head?_sortDesc, getLast?_sortDesc]
  constructor
  · obtain ⟨c, hc⟩ := firstArgmax_of_ne_nil hne
    have hname := hnames c (firstArgmax_mem hc)
    rw [hc]
    simp [nameOrNA, firstArgmaxName, hc, hname]
  · obtain ⟨c, hc⟩ := lastArgmin_of_ne_nil hne
    have hname := hnames c (lastArgmin_mem hc)
    rw [hc]
    simp [nameOrNA, lastArgminName, hc, hname]

/-- Concrete student for the C1 witness: components Quiz (mean 90) and
Exam (mean 60), the spec's own example. -/
def c1Student : StudentData :=
  { id := "s-Sheet1-0"
    name := "Ali"
    className := "Sheet1"
    components := [("Quiz", 90), ("Exam", 60)]
    totalScore := 75
    maxPossibleScore := 100
    percentage := 75
    group := determineGroup 75
    originalRow := []
    sheetName := "Sheet1" }

/-- Witness for C1: the amended theorem applied at the spec's example
population, with both hypotheses discharged concretely. -/
theorem C1_witness :
    (performFullAnalysis [c1Student]).strongestComponent =
      firstArgmaxName (componentStatsOf [c1Student]) ∧
    (performFullAnalysis [c1Student]).weakestComponent =
      lastArgminName (componentStatsOf [c1Student]) := by
  apply C1_strongest_first_weakest_last
  · simp [componentStatsOf, c1Student]
  · intro c hc
    simp only [componentStatsOf, c1Student, List.map_cons, List.map_nil] at hc
    rcases List.mem_cons.mp hc with rfl | hc
    · simp
    · rcases List.mem_cons.mp hc with rfl | hc
      · simp
      · simp at hc

/-- Concrete student for the C1 counterexample: two components with the
same mean (50). -/
def c1TieStudent : StudentData :=
  { id := "s-Sheet1-0"
    name := "Ali"
    className := "Sheet1"
    components := [("X", 50), ("Y", 50)]
    totalScore := 100
    maxPossibleScore := 100
    percentage := 100
    group := determineGroup 100
    originalRow := []
    sheetName := "Sheet1" }

/-- Counterexample to C1 as stated: with components X and Y tied on the
minimal mean, the first-encountered min-mean component is X, but the
code reports Y — the *last* of the stable descending sort — as the
weakest component. -/
theorem C1_counterexample :
    firstArgminName (componentStatsOf [c1TieStudent]) = "X" ∧
    (performFullAnalysis [c1TieStudent]).weakestComponent = "Y" := by
  have hmean : calculateMean [(50 : ℚ)] = 50 := by
    norm_num [calculateMean]
  have hlook : List.lookup "Y" [("X", (50 : ℚ)), ("Y", 50)] = some 50 := by decide
  constructor
  · simp [firstArgminName, firstArgmin, componentStatsOf, c1TieStudent, hmean, hlook]
  · have hw : (performFullAnalysis [c1TieStudent]).weakestComponent =
        nameOrNA (sortDesc (componentStatsOf [c1TieStudent])).getLast? := rfl
    rw [hw]
    simp [componentStatsOf, c1TieStudent, sortDesc, insertDesc, hmean, hlook, nameOrNA]

/-! ## AI request non-interference (C9) -/

/-- C9: the outbound narrative-generation request text is a function of
the `AnalysisSummary`, the `ComponentStat` list and the
strongest/weakest component names only — two analyses agreeing on those
four parts but differing in their per-student list produce the identical
request, so raw per-student data is never serialized. -/
theorem C9_prompt_ignores_students (a1 a2 : FullAnalysis)
    (hs : a1.summary = a2.summary)
    (hc : a1.componentStats = a2.componentStats)
    (hstrong : a1.strongestComponent = a2.strongestComponent)
    (hweak : a1.weakestComponent = a2.weakestComponent) :
    generateEducationalActionPlanPrompt a1 = generateEducationalActionPlanPrompt a2 := by
  unfold generateEducationalActionPlanPrompt
  rw [hs, hc, hstrong, hweak]

/-- Concrete summary for the C9 witness. -/
noncomputable def c9Summary : AnalysisSummary :=
  { mean := 70
    median := 70
    mode := 70
    stdDev := 0
    min := 60
    max := 80
    range := 20
    passCount := 2
    failCount := 0
    gradeDist := { A := 0, B := 1, C := 1, D := 0, F := 0 } }

/-- Concrete student present in one analysis and absent in the other. -/
def c9Student : StudentData :=
  { id := "s-Sheet1-0"
    name := "Sara"
    className := "Sheet1"
    components := [("Quiz", 80)]
    totalScore := 80
    maxPossibleScore := 100
    percentage := 80
    group := determineGroup 80
    originalRow := [("Name", .str "Sara"), ("Quiz", .num 80)]
    sheetName := "Sheet1" }

/-- Analysis carrying one raw student record. -/
noncomputable def c9A1 : FullAnalysis :=
  { summary := c9Summary
    students := [c9Student]
    componentStats := []
    strongestComponent := "Quiz"
    weakestComponent := "Quiz" }

/-- The same analysis with the student list emptied. -/
noncomputable def c9A2 : FullAnalysis :=
  { summary := c9Summary
    students := []
    componentStats := []
    strongestComponent := "Quiz"
    weakestComponent := "Quiz" }

/-- Witness for C9: two analyses with different student lists but equal
summaries produce the identical prompt. -/
theorem C9_witness :
    generateEducationalActionPlanPrompt c9A1 = generateEducationalActionPlanPrompt c9A2 ∧
    c9A1.students ≠ c9A2.students :=
  ⟨C9_prompt_ignores_students c9A1 c9A2 rfl rfl rfl rfl, by simp [c9A1, c9A2]⟩
